import Mathlib

/-!
Shallow embedding of `conflicted_ac_page_resolver.py` (function `resolve`),
the conflict-marked annotation-collection merge engine, together with proofs
about its marker parser, collection diff, chronological merger and orchestrator.

Modelling conventions:
* Python lists of lines become `List String` (each element keeps its trailing
  newline, as `readlines` does); the full text of a file is the concatenation
  of its lines.
* Python slices `lines[a:b]` become `sliceRange`; the source also slices with
  `None` bounds (`lines[:x]` / `lines[x:]` where `x` can be `None`), which in
  Python means "no bound", modelled by `sliceTo` / `sliceFrom` on `Option Nat`.
* `raise` aborts the run; fallible phases return `Except`.
* A parsed annotation (a JSON object) is modelled by `Annotation`: its `id`
  string, the parsed timestamp `datetime.fromisoformat(body.properties.system
  [CATMA_MARKUPTIMESTAMP_UUID][0])` (an instant, modelled as `Int`, ordered as
  `datetime` is), and the remaining content as an opaque `payload`; Python
  dict equality `their_annotation != our_annotation` becomes structural
  equality of `Annotation`.
* `json.load` is an external library call; the orchestrator model
  `resolveRun` takes the JSON parse as an oracle parameter
  `parseJson : String → Option (List Annotation)` and only depends on whether
  it succeeds and on the collections it returns.
-/

namespace ConflictedAcPageResolver

/-- Source line 34: `HEAD_MARKER = "<<<<<<<"`. -/
def HEAD_MARKER : String := "<<<<<<<"

/-- Source line 35: `SEPARATOR = "======="`. -/
def SEPARATOR : String := "======="

/-- Source line 37: `MASTER_MARKER = ">>>>>>>"`. -/
def MASTER_MARKER : String := ">>>>>>>"

/-- Source line 39: the namespace key under which the annotation timestamp is stored. -/
def CATMA_MARKUPTIMESTAMP_UUID : String := "CATMA_54A5F93F-5333-3F0D-92F7-7BD5930DB9E6"

/-- Python `line.startswith(m)`, modelled on the character lists of the two
strings. -/
def startsWith (m line : String) : Bool :=
  m.data.isPrefixOf line.data

/-- The three marker kinds tracked by `next_expected_marker` in the source. -/
inductive Marker where
  | head
  | sep
  | master
deriving DecidableEq, Repr

/-- The marker string each `Marker` stands for. -/
def Marker.text : Marker → String
  | .head => HEAD_MARKER
  | .sep => SEPARATOR
  | .master => MASTER_MARKER

/-- The scan state of the loop at source lines 45–90: the current block
bounds, the unconflicted-region bookkeeping, the collected conflicts and the
next expected marker. Field names follow the Python variables. -/
structure ScanState where
  oursStart : Option Nat := none
  oursEnd : Option Nat := none
  theirsStart : Option Nat := none
  theirsEnd : Option Nat := none
  unconflictedStartUntilIdx : Option Nat := none
  unconflictedEndFromIdx : Option Nat := none
  unconflictedLineIdxs : List Nat := []
  conflicts : List (Nat × Nat × Nat × Nat) := []
  nextExpectedMarker : Marker := .head
deriving DecidableEq, Repr

/-- The error raised by the sanity check at source lines 88–90 (`raise
f"Expected marker ... on line idx+1"`); we record the data interpolated into
the message. (In Python 3 raising a `str` actually raises a `TypeError`, but
either way the run aborts at this point with no file written.) -/
structure MarkerError where
  expected : Marker
  lineNumber : Nat
deriving DecidableEq, Repr

/-- One iteration of the scan loop (source lines 59–90) on line `line` with
index `idx`. -/
def scanLine (st : ScanState) (idx : Nat) (line : String) : Except MarkerError ScanState :=
  if startsWith HEAD_MARKER line ∧ st.nextExpectedMarker = .head then
    .ok { st with
      oursStart := some (idx + 1)
      nextExpectedMarker := .sep
      -- only set when the first conflict is encountered (source lines 64–65)
      unconflictedStartUntilIdx :=
        match st.unconflictedStartUntilIdx with
        | none => some idx
        | some n => some n
      -- source lines 67–68: record the line range between the previous
      -- conflict and this one
      unconflictedLineIdxs :=
        match st.unconflictedEndFromIdx with
        | some e => if e < idx then st.unconflictedLineIdxs ++ List.range' e (idx - e) else st.unconflictedLineIdxs
        | none => st.unconflictedLineIdxs }
  else if startsWith SEPARATOR line ∧ st.nextExpectedMarker = .sep then
    .ok { st with
      oursEnd := some idx
      theirsStart := some (idx + 1)
      nextExpectedMarker := .master }
  else if startsWith MASTER_MARKER line ∧ st.nextExpectedMarker = .master then
    .ok { st with
      theirsEnd := some idx
      nextExpectedMarker := .head
      -- keep overwriting until there are no more conflicts (source line 80)
      unconflictedEndFromIdx := some (idx + 1)
      -- the recorded bounds are always set at this point of the state machine
      conflicts := st.conflicts ++
        [(st.oursStart.getD 0, st.oursEnd.getD 0, st.theirsStart.getD 0, idx)] }
  else if (startsWith HEAD_MARKER line ∨ startsWith SEPARATOR line ∨ startsWith MASTER_MARKER line)
      ∧ ¬ startsWith st.nextExpectedMarker.text line then
    .error ⟨st.nextExpectedMarker, idx + 1⟩
  else
    .ok st

/-- The whole scan loop over the enumerated lines (source lines 59–90). -/
def scanLines (lines : List String) : Except MarkerError ScanState :=
  lines.enum.foldlM (fun st p => scanLine st p.1 p.2) {}

/-- Python `lines[:b]` where `b` may be `None` (`lines[:None]` is the whole
list). -/
def sliceTo (lines : List String) : Option Nat → List String
  | none => lines
  | some n => lines.take n

/-- Python `lines[a:]` where `a` may be `None` (`lines[None:]` is the whole
list). -/
def sliceFrom (lines : List String) : Option Nat → List String
  | none => lines
  | some n => lines.drop n

/-- Python `lines[a:b]` for `Nat` bounds. -/
def sliceRange (lines : List String) (a b : Nat) : List String :=
  (lines.drop a).take (b - a)

/-- The inner `while` at source lines 100–103: pop indexes smaller than
`bound` from the front of the deque; returns (popped, remaining). -/
def popUnconflicted (bound : Nat) : List Nat → List Nat × List Nat
  | [] => ([], [])
  | i :: rest =>
    if i < bound then
      let (popped, remaining) := popUnconflicted bound rest
      (i :: popped, remaining)
    else ([], i :: rest)

/-- The `for conflict in conflicts` loop at source lines 99–105, building the
ours/theirs line lists in one pass over the conflicts while draining the
unconflicted-index deque. (The source extends the line lists with
`our_file_lines += lines[unconflicted_line_idx]`, which appends the line's
characters one by one; since `writelines` concatenates the list elements, the
written text is identical to appending the whole line, which is how we model
it.) -/
def spliceLoop (lines : List String) :
    List (Nat × Nat × Nat × Nat) → List Nat → List String × List String
  | [], _ => ([], [])
  | (os, oe, ts, te) :: rest, uIdxs =>
    let (popped, remaining) := popUnconflicted os uIdxs
    let uncon := popped.map (fun i => lines.getD i "")
    let (oursRest, theirsRest) := spliceLoop lines rest remaining
    (uncon ++ sliceRange lines os oe ++ oursRest,
     uncon ++ sliceRange lines ts te ++ theirsRest)

/-- The list written to `our_file` (source lines 97–106):
`lines[:unconflicted_start_until_idx]`, then the conflict splice, then
`lines[unconflicted_end_from_idx:]`. -/
def ourFileLines (lines : List String) (st : ScanState) : List String :=
  sliceTo lines st.unconflictedStartUntilIdx
    ++ (spliceLoop lines st.conflicts st.unconflictedLineIdxs).1
    ++ sliceFrom lines st.unconflictedEndFromIdx

/-- The list written to `their_file` (source lines 98–107). -/
def theirFileLines (lines : List String) (st : ScanState) : List String :=
  sliceTo lines st.unconflictedStartUntilIdx
    ++ (spliceLoop lines st.conflicts st.unconflictedLineIdxs).2
    ++ sliceFrom lines st.unconflictedEndFromIdx

/-- The text content of `our_file`: `writelines` concatenates the lines. -/
def oursText (lines : List String) (st : ScanState) : String :=
  String.join (ourFileLines lines st)

/-- The text content of `their_file`. -/
def theirsText (lines : List String) (st : ScanState) : String :=
  String.join (theirFileLines lines st)

/-- A parsed annotation record (one JSON object of the collection): the `id`
string, the parsed timestamp (the `datetime.fromisoformat` value of
`body.properties.system[CATMA_MARKUPTIMESTAMP_UUID][0]`, modelled as an `Int`
instant with the same ordering), and the remaining record content as an
opaque `payload`. Equality of `Annotation` models Python dict equality of the
full record. -/
structure Annotation where
  id : String
  timestamp : Int
  payload : String
deriving DecidableEq, Repr

/-- Python `annotation["id"][-42:]` (source lines 122–123 and later): the last
42 characters of `id`, or all of it when it is shorter. -/
def identityKey (a : Annotation) : String :=
  a.id.drop (a.id.length - 42)

/-- Source line 122: `our_annotation_ids`. -/
def ourAnnotationIds (ourAnnotations : List Annotation) : List String :=
  ourAnnotations.map identityKey

/-- Source line 123: `their_annotation_ids`. -/
def theirAnnotationIds (theirAnnotations : List Annotation) : List String :=
  theirAnnotations.map identityKey

/-- Source line 124: `list(set(their_annotation_ids) - set(our_annotation_ids))`.
Python materializes the set difference in an unspecified order; we pick the
canonical materialization (first-encounter order, deduplicated), which has
exactly the membership of the set difference. The theorem for C10 shows the
downstream computation depends on this list only through membership. -/
def theirNewAnnotationIds (ourAnnotations theirAnnotations : List Annotation) : List String :=
  ((theirAnnotationIds theirAnnotations).filter
    (fun i => decide (i ∉ ourAnnotationIds ourAnnotations))).dedup

/-- Source lines 125–126, generalized over the materialized id list: the
records of `theirs` whose identity key occurs in `theirNewIds`, in `theirs`
order. -/
def theirNewAnnotationsFrom (theirNewIds : List String) (theirAnnotations : List Annotation) :
    List Annotation :=
  theirAnnotations.filter (fun a => decide (identityKey a ∈ theirNewIds))

/-- Source lines 125–126: `their_new_annotations` as initially computed. -/
def theirNewAnnotations (ourAnnotations theirAnnotations : List Annotation) : List Annotation :=
  theirNewAnnotationsFrom (theirNewAnnotationIds ourAnnotations theirAnnotations) theirAnnotations

/-- Source line 129: `list(set(their_annotation_ids) & set(our_annotation_ids))`,
canonical materialization as for `theirNewAnnotationIds`. -/
def bothAnnotationIds (ourAnnotations theirAnnotations : List Annotation) : List String :=
  ((theirAnnotationIds theirAnnotations).filter
    (fun i => decide (i ∈ ourAnnotationIds ourAnnotations))).dedup

/-- The records appended to `their_new_annotations` by the mismatch loop at
source lines 130–142, generalized over the materialized `both_annotation_ids`
list: for each record of `ours` whose identity is in `bothIds`, every record
of `theirs` with the same identity and a different value, in encounter order
(outer loop over `ours`, inner loop over `theirs`). -/
def conflictingTheirsFrom (bothIds : List String) (ourAnnotations theirAnnotations : List Annotation) :
    List Annotation :=
  ourAnnotations.flatMap (fun o =>
    if identityKey o ∈ bothIds then
      theirAnnotations.filter (fun t => decide (identityKey t = identityKey o ∧ t ≠ o))
    else [])

/-- The exact warning `print`ed at source line 139 for one mismatched identity. -/
def mismatchWarning (identity : String) : String :=
  "WARNING: Mismatch in annotations with ID " ++ identity ++ ", check manually"

/-- The messages printed by the mismatch loop at source lines 130–142, one per
mismatched `ours`/`theirs` pair, generalized over the materialized
`both_annotation_ids` list. -/
def conflictReportsFrom (bothIds : List String) (ourAnnotations theirAnnotations : List Annotation) :
    List String :=
  ourAnnotations.flatMap (fun o =>
    if identityKey o ∈ bothIds then
      (theirAnnotations.filter (fun t => decide (identityKey t = identityKey o ∧ t ≠ o))).map
        (fun _ => mismatchWarning (identityKey o))
    else [])

/-- The inner insertion loop at source lines 147–164, inserting one incoming
record `r` into the (descending-by-timestamp) working list.

The Python loop mutates `our_annotations` while `for idx, our_annotation in
enumerate(our_annotations)` iterates over it, which this function reproduces
faithfully:
* empty list: the loop body never runs, `was_added` stays false and the code
  reaches `raise "Failed to add annotation"`;
* at an element `e` with `e.timestamp <= r.timestamp`: `insert(idx, r)` puts
  `r` immediately before `e` and `break`s;
* at the last element `e` with `e.timestamp > r.timestamp`: the
  `idx == len(our_annotations) - 1` branch appends `r` — but does not
  `break`, so the iteration continues onto the appended `r` itself, finds
  `r.timestamp <= r.timestamp` and inserts `r` a second time, yielding the
  tail `[e, r, r]`. -/
def insertByTimestamp (r : Annotation) : List Annotation → Except String (List Annotation)
  | [] => .error "Failed to add annotation"
  | [e] =>
    if e.timestamp ≤ r.timestamp then .ok [r, e]
    else .ok [e, r, r]
  | e :: e2 :: rest =>
    if e.timestamp ≤ r.timestamp then .ok (r :: e :: e2 :: rest)
    else (insertByTimestamp r (e2 :: rest)).map (fun l => e :: l)

/-- The chronological merger (source lines 144–168): reverse `ours` to
descending order, insert each incoming record in turn, reverse back to
ascending order. -/
def mergeAnnotations (ourAnnotations theirNew : List Annotation) :
    Except String (List Annotation) :=
  (theirNew.foldlM (fun acc r => insertByTimestamp r acc) ourAnnotations.reverse).map
    List.reverse

/-- The full list of records inserted by the run: the new records followed by
the mismatched theirs-versions appended by the loop at source lines 130–142. -/
def recordsToMerge (ourAnnotations theirAnnotations : List Annotation) : List Annotation :=
  theirNewAnnotations ourAnnotations theirAnnotations
    ++ conflictingTheirsFrom (bothAnnotationIds ourAnnotations theirAnnotations)
        ourAnnotations theirAnnotations

/-- How a run of `resolve` can abort. -/
inductive RunError where
  | malformedConflictSyntax (expected : Marker) (lineNumber : Nat)
  | invalidRecordCollection
  | insertFailed (msg : String)
deriving DecidableEq, Repr

/-- The whole `resolve` run on the input's lines, with `json.load` abstracted
as the oracle `parseJson` applied to the reconstructed texts. Returns the
names of the files written (in write order) and the outcome: on success the
merged collection and the printed mismatch warnings, otherwise the abort
error. Mirrors the source's effect order: `our_file` and `their_file` are
written (source lines 109–112) before the two `json.load` calls (source lines
119–120); `merged_file` is written last (source lines 170–171). -/
def resolveRun (parseJson : String → Option (List Annotation)) (lines : List String) :
    List String × Except RunError (List Annotation × List String) :=
  match scanLines lines with
  | .error e => ([], .error (.malformedConflictSyntax e.expected e.lineNumber))
  | .ok st =>
    let written := ["our_file", "their_file"]
    match parseJson (oursText lines st), parseJson (theirsText lines st) with
    | some ourAnnotations, some theirAnnotations =>
      let reports :=
        conflictReportsFrom (bothAnnotationIds ourAnnotations theirAnnotations)
          ourAnnotations theirAnnotations
      match mergeAnnotations ourAnnotations (recordsToMerge ourAnnotations theirAnnotations) with
      | .error msg => (written, .error (.insertFailed msg))
      | .ok merged => (written ++ ["merged_file"], .ok (merged, reports))
    | _, _ => (written, .error .invalidRecordCollection)

/-- Ascending-timestamp adjacency relation (the chronological order of a
collection). -/
def tsLE (a b : Annotation) : Prop := a.timestamp ≤ b.timestamp

/-- Descending-timestamp adjacency relation (the working order of the
insertion loop after `our_annotations.reverse()`). -/
def tsGE (a b : Annotation) : Prop := b.timestamp ≤ a.timestamp

instance : DecidableRel tsLE := fun a b => inferInstanceAs (Decidable (a.timestamp ≤ b.timestamp))

instance : DecidableRel tsGE := fun a b => inferInstanceAs (Decidable (b.timestamp ≤ a.timestamp))

/-- Concrete record used in scenario evaluations (A@t1 with t1 = 100). -/
def annA : Annotation := ⟨"id-A", 100, "A"⟩

/-- Concrete record B@t1. -/
def annB : Annotation := ⟨"id-B", 100, "B"⟩

/-- Concrete record C@t1. -/
def annC : Annotation := ⟨"id-C", 100, "C"⟩

/-- Concrete record D@t2 with t2 = 200. -/
def annD : Annotation := ⟨"id-D", 200, "D"⟩

/-- Concrete record E@t0 with t0 = 50, strictly older than all the others. -/
def annE : Annotation := ⟨"id-E", 50, "E"⟩

/-- A record with the same identity as `annA` but a different payload. -/
def annA2 : Annotation := ⟨"id-A", 100, "changed"⟩

/-- Inserting into a nonempty working list always succeeds, and the result is
again nonempty. -/
theorem insertByTimestamp_ok (r : Annotation) :
    ∀ l : List Annotation, l ≠ [] → ∃ l2, insertByTimestamp r l = .ok l2 ∧ l2 ≠ []
  | [], h => absurd rfl h
  | [e], _ => by
    by_cases hle : e.timestamp ≤ r.timestamp <;>
      simp [insertByTimestamp, hle]
  | e :: e2 :: rest, _ => by
    by_cases hle : e.timestamp ≤ r.timestamp
    · simp [insertByTimestamp, hle]
    · obtain ⟨l2, hl2, _⟩ := insertByTimestamp_ok r (e2 :: rest) (by simp)
      exact ⟨e :: l2, by simp [insertByTimestamp, hle, hl2, Except.map], by simp⟩

/-- The insertion loop only adds `r` to the working list: `r` is in the
result and every previous element still is. -/
theorem insertByTimestamp_mem (r : Annotation) :
    ∀ l l2 : List Annotation, insertByTimestamp r l = .ok l2 →
      r ∈ l2 ∧ ∀ x ∈ l, x ∈ l2
  | [], l2, h => by simp [insertByTimestamp] at h
  | [e], l2, h => by
    by_cases hle : e.timestamp ≤ r.timestamp <;>
      simp [insertByTimestamp, hle] at h <;> subst h <;> simp
  | e :: e2 :: rest, l2, h => by
    by_cases hle : e.timestamp ≤ r.timestamp
    · simp [insertByTimestamp, hle] at h
      subst h; simp
      exact fun a ha => Or.inr (Or.inr (Or.inr ha))
    · simp [insertByTimestamp, hle, Except.map] at h
      cases hi : insertByTimestamp r (e2 :: rest) with
      | error msg => rw [hi] at h; simp at h
      | ok l' =>
        rw [hi] at h; simp at h
        obtain ⟨hr, hsub⟩ := insertByTimestamp_mem r (e2 :: rest) l' hi
        subst h
        refine ⟨.tail _ hr, ?_⟩
        intro x hx
        rcases List.mem_cons.mp hx with hx | hx
        · exact hx ▸ List.mem_cons_self _ _
        · exact .tail _ (hsub x hx)

/-- The insertion loop preserves the descending-timestamp chain of the
working list, and the head of the result is either `r` or the old head. -/
theorem insertByTimestamp_chain (r : Annotation) :
    ∀ l l2 : List Annotation, List.Chain' tsGE l → insertByTimestamp r l = .ok l2 →
      List.Chain' tsGE l2 ∧ (l2.head? = some r ∨ l2.head? = l.head?)
  | [], l2, _, h => by simp [insertByTimestamp] at h
  | [e], l2, _, h => by
    by_cases hle : e.timestamp ≤ r.timestamp
    · simp [insertByTimestamp, hle] at h
      subst h
      exact ⟨by simp [List.chain'_cons, tsGE, hle], by simp⟩
    · simp [insertByTimestamp, hle] at h
      subst h
      refine ⟨?_, by simp⟩
      simp [List.chain'_cons, tsGE]
      exact le_of_lt (not_le.mp hle)
  | e :: e2 :: rest, l2, hc, h => by
    by_cases hle : e.timestamp ≤ r.timestamp
    · simp [insertByTimestamp, hle] at h
      subst h
      exact ⟨List.chain'_cons.mpr ⟨hle, hc⟩, by simp⟩
    · simp [insertByTimestamp, hle, Except.map] at h
      cases hi : insertByTimestamp r (e2 :: rest) with
      | error msg => rw [hi] at h; simp at h
      | ok l' =>
        rw [hi] at h; simp at h
        subst h
        obtain ⟨hcl, hhead⟩ := insertByTimestamp_chain r (e2 :: rest) l' hc.tail hi
        refine ⟨List.chain'_cons'.mpr ⟨?_, hcl⟩, by simp⟩
        intro y hy
        rcases hhead with hh | hh
        · rw [hh] at hy
          cases hy
          exact le_of_lt (not_le.mp hle)
        · rw [hh] at hy
          cases hy
          exact (List.chain'_cons.mp hc).1

/-- The whole insertion fold (source lines 146–164) succeeds on a nonempty
initial working list, keeps it nonempty, keeps every element and contains
every inserted record. -/
theorem insertFold_mem :
    ∀ (incoming acc : List Annotation), acc ≠ [] →
      ∃ res, incoming.foldlM (fun acc r => insertByTimestamp r acc) acc = .ok res
        ∧ res ≠ [] ∧ (∀ x ∈ acc, x ∈ res) ∧ (∀ r ∈ incoming, r ∈ res)
  | [], acc, hne => ⟨acc, rfl, hne, fun x hx => hx, by simp⟩
  | r :: rest, acc, hne => by
    obtain ⟨mid, hmid, hmidne⟩ := insertByTimestamp_ok r acc hne
    obtain ⟨hrmem, hsub⟩ := insertByTimestamp_mem r acc mid hmid
    obtain ⟨res, hres, hresne, hsub2, hinc⟩ := insertFold_mem rest mid hmidne
    refine ⟨res, ?_, hresne, fun x hx => hsub2 x (hsub x hx), ?_⟩
    · rw [List.foldlM_cons, hmid]
      exact hres
    · intro q hq
      rcases List.mem_cons.mp hq with hq | hq
      · exact hq ▸ hsub2 r hrmem
      · exact hinc q hq

/-- The whole insertion fold preserves the descending-timestamp chain. -/
theorem insertFold_chain :
    ∀ (incoming acc acc2 : List Annotation), List.Chain' tsGE acc →
      incoming.foldlM (fun acc r => insertByTimestamp r acc) acc = .ok acc2 →
      List.Chain' tsGE acc2
  | [], acc, acc2, hc, h => by
    simp only [List.foldlM_nil, pure, Except.pure, Except.ok.injEq] at h
    exact h ▸ hc
  | r :: rest, acc, acc2, hc, h => by
    rw [List.foldlM_cons] at h
    cases hi : insertByTimestamp r acc with
    | error msg => rw [hi] at h; simp [Bind.bind, Except.bind] at h
    | ok mid =>
      rw [hi] at h
      simp only [Bind.bind, Except.bind] at h
      exact insertFold_chain rest mid acc2 (insertByTimestamp_chain r acc mid hc hi).1 h

/-- A list chains ascending exactly when its reverse chains descending. -/
theorem chain'_tsLE_iff_reverse (l : List Annotation) :
    List.Chain' tsLE l ↔ List.Chain' tsGE l.reverse := by
  rw [List.chain'_reverse]
  exact ⟨fun h => h.imp fun a b hab => hab, fun h => h.imp fun a b hab => hab⟩

/-- The records of a collection carrying timestamp `t`, in collection order. -/
def tsFilter (t : Int) (l : List Annotation) : List Annotation :=
  l.filter (fun x => decide (x.timestamp = t))

/-- Filtering by a timestamp commutes with reversal. -/
theorem tsFilter_reverse (t : Int) (l : List Annotation) :
    tsFilter t l.reverse = (tsFilter t l).reverse := by
  simp [tsFilter]

/-- Inserting a record whose timestamp is `t`, when some record of the working
list has a timestamp at most the incoming one, prepends it to the timestamp-`t`
records of the (descending) working list: the scan inserts it before the first
element with timestamp at most `t`, and every element skipped over is strictly
newer than `t`. -/
theorem insertByTimestamp_filter_eq (r : Annotation) (t : Int) :
    ∀ w w2 : List Annotation, insertByTimestamp r w = .ok w2 → r.timestamp = t →
      (∃ e ∈ w, e.timestamp ≤ r.timestamp) →
      tsFilter t w2 = r :: tsFilter t w
  | [], w2, h, _, _ => by simp [insertByTimestamp] at h
  | [e], w2, h, hrt, hex => by
    by_cases hle : e.timestamp ≤ r.timestamp
    · simp [insertByTimestamp, hle] at h
      subst h
      simp [tsFilter, List.filter_cons, hrt]
    · obtain ⟨x, hx, hxle⟩ := hex
      simp at hx
      exact absurd (hx ▸ hxle) hle
  | e :: e2 :: rest, w2, h, hrt, hex => by
    by_cases hle : e.timestamp ≤ r.timestamp
    · simp [insertByTimestamp, hle] at h
      subst h
      simp [tsFilter, List.filter_cons, hrt]
    · simp [insertByTimestamp, hle, Except.map] at h
      cases hi : insertByTimestamp r (e2 :: rest) with
      | error msg => rw [hi] at h; simp at h
      | ok l' =>
        rw [hi] at h; simp at h
        subst h
        obtain ⟨x, hx, hxle⟩ := hex
        rcases List.mem_cons.mp hx with hx | hx
        · exact absurd (hx ▸ hxle) hle
        · have ih := insertByTimestamp_filter_eq r t (e2 :: rest) l' hi hrt ⟨x, hx, hxle⟩
          have het : ¬ e.timestamp = t := fun hc => hle (le_of_eq (hc.trans hrt.symm))
          unfold tsFilter at ih ⊢
          rw [List.filter_cons, List.filter_cons]
          simp only [decide_eq_true_eq, het, if_false]
          exact ih

/-- Inserting a record whose timestamp is not `t` leaves the timestamp-`t`
records of the working list unchanged (even on the duplicate-append path). -/
theorem insertByTimestamp_filter_ne (r : Annotation) (t : Int) :
    ∀ w w2 : List Annotation, insertByTimestamp r w = .ok w2 → r.timestamp ≠ t →
      tsFilter t w2 = tsFilter t w
  | [], w2, h, _ => by simp [insertByTimestamp] at h
  | [e], w2, h, hne => by
    by_cases hle : e.timestamp ≤ r.timestamp <;>
      simp [insertByTimestamp, hle] at h <;> subst h <;>
      simp [tsFilter, List.filter_cons, hne]
  | e :: e2 :: rest, w2, h, hne => by
    by_cases hle : e.timestamp ≤ r.timestamp
    · simp [insertByTimestamp, hle] at h
      subst h
      simp [tsFilter, List.filter_cons, hne]
    · simp [insertByTimestamp, hle, Except.map] at h
      cases hi : insertByTimestamp r (e2 :: rest) with
      | error msg => rw [hi] at h; simp at h
      | ok l' =>
        rw [hi] at h; simp at h
        subst h
        have ih := insertByTimestamp_filter_ne r t (e2 :: rest) l' hi hne
        unfold tsFilter at ih ⊢
        rw [List.filter_cons, List.filter_cons, ih]

/-- Through the whole insertion fold, as long as some record of the working
list carries timestamp `t`, the timestamp-`t` records of the (descending)
working list are the incoming timestamp-`t` records in reverse encounter
order, followed by the original ones. -/
theorem insertFold_filter (t : Int) :
    ∀ (incoming w w2 : List Annotation) (e : Annotation), e ∈ w → e.timestamp = t →
      incoming.foldlM (fun acc r => insertByTimestamp r acc) w = .ok w2 →
      tsFilter t w2 = (tsFilter t incoming).reverse ++ tsFilter t w
  | [], w, w2, e, he, het, h => by
    simp only [List.foldlM_nil, pure, Except.pure, Except.ok.injEq] at h
    subst h
    simp [tsFilter]
  | r :: rest, w, w2, e, he, het, h => by
    rw [List.foldlM_cons] at h
    cases hi : insertByTimestamp r w with
    | error msg => rw [hi] at h; simp [Bind.bind, Except.bind] at h
    | ok mid =>
      rw [hi] at h
      simp only [Bind.bind, Except.bind] at h
      have hemid : e ∈ mid := (insertByTimestamp_mem r w mid hi).2 e he
      have ih := insertFold_filter t rest mid w2 e hemid het h
      by_cases hrt : r.timestamp = t
      · have hstep := insertByTimestamp_filter_eq r t w mid hi hrt
          ⟨e, he, le_of_eq (het.trans hrt.symm)⟩
        rw [ih, hstep]
        simp [tsFilter, List.filter_cons, hrt]
      · have hstep := insertByTimestamp_filter_ne r t w mid hi hrt
        rw [ih, hstep]
        simp [tsFilter, List.filter_cons, hrt]

/-- The merge succeeds whenever the base collection is nonempty, keeps every
base record and contains every incoming record. -/
theorem mergeAnnotations_total (ourAnnotations incoming : List Annotation)
    (hne : ourAnnotations ≠ []) :
    ∃ m, mergeAnnotations ourAnnotations incoming = .ok m
      ∧ (∀ x ∈ ourAnnotations, x ∈ m) ∧ (∀ r ∈ incoming, r ∈ m) := by
  obtain ⟨res, hres, _, hsub, hinc⟩ :=
    insertFold_mem incoming ourAnnotations.reverse (by simpa using hne)
  refine ⟨res.reverse, ?_, ?_, ?_⟩
  · rw [mergeAnnotations, hres]
    rfl
  · intro x hx
    exact List.mem_reverse.mpr (hsub x (List.mem_reverse.mpr hx))
  · intro r hr
    exact List.mem_reverse.mpr (hinc r hr)

end ConflictedAcPageResolver

namespace ConflictedAcPageResolver

/-- C1, counterexample: on base `[A@t1]` and incoming `[B@t1, C@t1]` the
merge of the code yields `[A@t1, B@t1, C@t1]`, not the claimed
`[B@t1, C@t1, A@t1]`: an incoming record whose timestamp equals an existing
record's is placed after that existing record, not before it. -/
theorem C1_counterexample :
    mergeAnnotations [annA] [annB, annC] = .ok [annA, annB, annC]
    ∧ ([annA, annB, annC] : List Annotation) ≠ [annB, annC, annA] :=
  ⟨rfl, by decide⟩

/-- C1, amended: for every ascending-by-timestamp base collection and every
incoming record list, when an incoming record's timestamp equals an existing
record's timestamp, the merge places the incoming record after that existing
record, and incoming records with equal timestamps keep their encounter order
among themselves: for each timestamp `t` carried by some base record, the
timestamp-`t` records of the merged output are exactly the base's
timestamp-`t` records in base order followed by the incoming timestamp-`t`
records in encounter order (so base `[A@t1]`, incoming `[B@t1, C@t1]` yields
merged `[A@t1, B@t1, C@t1]`). -/
theorem C1_tie_placed_after (ourAnnotations incoming m : List Annotation) (t : Int)
    (hasc : List.Chain' tsLE ourAnnotations)
    (hm : mergeAnnotations ourAnnotations incoming = .ok m)
    (hex : ∃ e ∈ ourAnnotations, e.timestamp = t) :
    tsFilter t m = tsFilter t ourAnnotations ++ tsFilter t incoming := by
  obtain ⟨e, he, het⟩ := hex
  unfold mergeAnnotations at hm
  cases hf : incoming.foldlM (fun acc r => insertByTimestamp r acc) ourAnnotations.reverse with
  | error msg => rw [hf] at hm; simp [Except.map] at hm
  | ok w =>
    rw [hf] at hm
    simp [Except.map] at hm
    subst hm
    have hfold := insertFold_filter t incoming ourAnnotations.reverse w e
      (List.mem_reverse.mpr he) het hf
    rw [tsFilter_reverse, hfold]
    simp [tsFilter_reverse]

/-- Witness for C1's amended theorem at the concrete scenario: base `[A@100]`,
incoming `[B@100, C@100]` merge to `[A, B, C]`, whose timestamp-100 records
are the base's followed by the incoming ones in encounter order. -/
theorem C1_tie_placed_after_witness :
    List.Chain' tsLE [annA]
    ∧ mergeAnnotations [annA] [annB, annC] = .ok [annA, annB, annC]
    ∧ (∃ e ∈ ([annA] : List Annotation), e.timestamp = (100 : Int))
    ∧ tsFilter 100 [annA, annB, annC] = tsFilter 100 [annA] ++ tsFilter 100 [annB, annC] :=
  ⟨List.chain'_singleton annA, rfl, ⟨annA, by simp, rfl⟩,
    C1_tie_placed_after [annA] [annB, annC] [annA, annB, annC] 100
      (List.chain'_singleton annA) rfl ⟨annA, by simp, rfl⟩⟩

/-- C2: on the marker-free input consisting of the single line `[]`, the
reconstruction of the code emits the input twice (because
`lines[:unconflicted_start_until_idx]` and `lines[unconflicted_end_from_idx:]`
are both whole-list slices when the index variables were never set), so both
reconstructed texts differ from the input — contradicting the claimed
identity reconstruction. -/
theorem C2_zero_conflicts_doubled :
    (scanLines ["[]\n"]).map (ourFileLines ["[]\n"]) = .ok ["[]\n", "[]\n"]
    ∧ (scanLines ["[]\n"]).map (theirFileLines ["[]\n"]) = .ok ["[]\n", "[]\n"]
    ∧ (scanLines ["[]\n"]).map (oursText ["[]\n"]) = .ok "[]\n[]\n"
    ∧ (scanLines ["[]\n"]).map (theirsText ["[]\n"]) = .ok "[]\n[]\n"
    ∧ ("[]\n[]\n" : String) ≠ String.join ["[]\n"] :=
  ⟨rfl, rfl, rfl, rfl, by decide⟩

/-- C3: on an input whose ours-start marker is never followed by a separator
marker, the scan of the code raises no marker error at all; the run writes
`our_file` and `their_file` (the dangling marker line included) and only
fails later when the reconstructed text does not parse as JSON — not with a
marker-syntax error and not before producing output artifacts. (The oracle
`fun _ => none` reflects that `json.load` rejects a text containing the raw
`<<<<<<<` line.) -/
theorem C3_unterminated_writes_artifacts :
    (resolveRun (fun _ => none) ["<<<<<<< HEAD\n", "[]\n"]).1 = ["our_file", "their_file"]
    ∧ (resolveRun (fun _ => none) ["<<<<<<< HEAD\n", "[]\n"]).2 = .error .invalidRecordCollection
    ∧ (scanLines ["<<<<<<< HEAD\n", "[]\n"]).map (ourFileLines ["<<<<<<< HEAD\n", "[]\n"])
        = .ok ["<<<<<<< HEAD\n", "[]\n"] :=
  ⟨rfl, rfl, rfl⟩

/-- C4: inserting a record strictly older than every base record appends it
and then — because the Python loop keeps iterating over the list it just
mutated — inserts it a second time: base `[D@t2]` with incoming `[E@t0]`
(t0 < t2) yields `[E, E, D]`, containing the incoming record twice. -/
theorem C4_tail_insert_duplicates :
    mergeAnnotations [annD] [annE] = .ok [annE, annE, annD]
    ∧ [annE, annE, annD].count annE = 2
    ∧ annE.timestamp < annD.timestamp
    ∧ mergeAnnotations [] [annE] = .error "Failed to add annotation" :=
  ⟨rfl, by decide, by decide, rfl⟩

/-- C5, counterexample: when a reconstructed side fails to parse as a JSON
record collection, the run has already written the `our_file` and
`their_file` artifacts, contradicting the claim that no output file is left
written. -/
theorem C5_counterexample :
    (resolveRun (fun _ => none) ["x\n"]).2 = .error .invalidRecordCollection
    ∧ "our_file" ∈ (resolveRun (fun _ => none) ["x\n"]).1
    ∧ "their_file" ∈ (resolveRun (fun _ => none) ["x\n"]).1 :=
  ⟨rfl, by decide, by decide⟩

/-- C9: for a mismatched same-identity pair the code prints
`WARNING: Mismatch in annotations with ID <identity>, check manually`, which
is not the message `Mismatch in annotations with ID <identity>` that the
claim (and the repository's own test, which asserts the printed argument
exactly) prescribes. -/
theorem C9_warning_format :
    conflictReportsFrom (bothAnnotationIds [annA] [annA2]) [annA] [annA2]
      = [mismatchWarning "id-A"]
    ∧ mismatchWarning "id-A" ≠ "Mismatch in annotations with ID id-A" :=
  ⟨rfl, by decide⟩

/-- C5, amended: when a reconstructed side fails to parse as a JSON record
collection, the run aborts before the merged file is written: exactly
`our_file` and `their_file` have been written, and no `merged_file` is
produced. -/
theorem C5_no_merged_on_parse_failure (parseJson : String → Option (List Annotation))
    (lines : List String)
    (h : (resolveRun parseJson lines).2 = .error .invalidRecordCollection) :
    (resolveRun parseJson lines).1 = ["our_file", "their_file"]
    ∧ "merged_file" ∉ (resolveRun parseJson lines).1 := by
  cases hs : scanLines lines with
  | error e => simp [resolveRun, hs] at h
  | ok st =>
    cases hp : parseJson (oursText lines st) with
    | none =>
      constructor
      · simp [resolveRun, hs, hp]
      · simp [resolveRun, hs, hp]
    | some ourAnns =>
      cases hq : parseJson (theirsText lines st) with
      | none =>
        constructor
        · simp [resolveRun, hs, hp, hq]
        · simp [resolveRun, hs, hp, hq]
      | some theirAnns =>
        cases hm : mergeAnnotations ourAnns (recordsToMerge ourAnns theirAnns) with
        | error msg => simp [resolveRun, hs, hp, hq, hm] at h
        | ok merged => simp [resolveRun, hs, hp, hq, hm] at h

/-- Witness for C5's amended theorem: a concrete run whose JSON parse fails
has written exactly the ours and theirs artifacts and no merged file. -/
theorem C5_no_merged_witness :
    (resolveRun (fun _ => none) ["x\n"]).2 = .error .invalidRecordCollection
    ∧ (resolveRun (fun _ => none) ["x\n"]).1 = ["our_file", "their_file"]
    ∧ "merged_file" ∉ (resolveRun (fun _ => none) ["x\n"]).1 :=
  ⟨rfl, (C5_no_merged_on_parse_failure (fun _ => none) ["x\n"] rfl).1,
    (C5_no_merged_on_parse_failure (fun _ => none) ["x\n"] rfl).2⟩

/-- C6: whenever the base collection is in ascending timestamp order and the
merge returns a collection, every adjacent pair `(a, b)` of the merged output
satisfies `a.timestamp ≤ b.timestamp` — the insertion against the reversed
(descending) working list preserves the descending chain, even on the
duplicate-append path, and the final reversal restores the ascending
invariant. -/
theorem C6_merged_sorted (ourAnnotations incoming merged : List Annotation)
    (hasc : List.Chain' tsLE ourAnnotations)
    (hm : mergeAnnotations ourAnnotations incoming = .ok merged) :
    List.Chain' tsLE merged := by
  unfold mergeAnnotations at hm
  cases hf : incoming.foldlM (fun acc r => insertByTimestamp r acc) ourAnnotations.reverse with
  | error msg => rw [hf] at hm; simp [Except.map] at hm
  | ok w =>
    rw [hf] at hm
    simp [Except.map] at hm
    subst hm
    rw [chain'_tsLE_iff_reverse, List.reverse_reverse]
    exact insertFold_chain incoming ourAnnotations.reverse w
      ((chain'_tsLE_iff_reverse ourAnnotations).mp hasc) hf

/-- Witness for C6 at a concrete run: ascending base `[A@100, D@200]` with
incoming `[E@50, B@100]` merges to the ascending `[E, E, A, B, D]`. -/
theorem C6_merged_sorted_witness :
    List.Chain' tsLE [annA, annD]
    ∧ mergeAnnotations [annA, annD] [annE, annB] = .ok [annE, annE, annA, annB, annD]
    ∧ List.Chain' tsLE [annE, annE, annA, annB, annD] :=
  ⟨by norm_num [List.chain'_cons, tsLE, annA, annD], rfl,
    C6_merged_sorted [annA, annD] [annE, annB] _
      (by norm_num [List.chain'_cons, tsLE, annA, annD]) rfl⟩

/-- C7: for any pair of records with the same identity key but different
values, one in ours and one in theirs, the merged collection the run builds
contains both versions, and the mismatch warning for that identity is among
the printed reports. -/
theorem C7_conflict_surfaced (ourAnnotations theirAnnotations : List Annotation)
    (o t : Annotation) (ho : o ∈ ourAnnotations) (ht : t ∈ theirAnnotations)
    (hid : identityKey t = identityKey o) (hne : t ≠ o) :
    (∃ m, mergeAnnotations ourAnnotations (recordsToMerge ourAnnotations theirAnnotations) = .ok m
      ∧ o ∈ m ∧ t ∈ m)
    ∧ mismatchWarning (identityKey o) ∈
        conflictReportsFrom (bothAnnotationIds ourAnnotations theirAnnotations)
          ourAnnotations theirAnnotations := by
  have hoid : identityKey o ∈ ourAnnotationIds ourAnnotations :=
    List.mem_map.mpr ⟨o, ho, rfl⟩
  have htid : identityKey o ∈ theirAnnotationIds theirAnnotations :=
    List.mem_map.mpr ⟨t, ht, hid⟩
  have hboth : identityKey o ∈ bothAnnotationIds ourAnnotations theirAnnotations := by
    unfold bothAnnotationIds
    rw [List.mem_dedup, List.mem_filter]
    exact ⟨htid, by simpa using hoid⟩
  have htfilter :
      t ∈ theirAnnotations.filter (fun u => decide (identityKey u = identityKey o ∧ u ≠ o)) :=
    List.mem_filter.mpr ⟨ht, by simp [hid, hne]⟩
  have htconf : t ∈ conflictingTheirsFrom (bothAnnotationIds ourAnnotations theirAnnotations)
      ourAnnotations theirAnnotations := by
    unfold conflictingTheirsFrom
    exact List.mem_flatMap.mpr ⟨o, ho, by rw [if_pos hboth]; exact htfilter⟩
  have htmerge : t ∈ recordsToMerge ourAnnotations theirAnnotations :=
    List.mem_append.mpr (Or.inr htconf)
  obtain ⟨m, hm, hsub, hinc⟩ :=
    mergeAnnotations_total ourAnnotations (recordsToMerge ourAnnotations theirAnnotations)
      (List.ne_nil_of_mem ho)
  refine ⟨⟨m, hm, hsub o ho, hinc t htmerge⟩, ?_⟩
  unfold conflictReportsFrom
  exact List.mem_flatMap.mpr
    ⟨o, ho, by rw [if_pos hboth]; exact List.mem_map.mpr ⟨t, htfilter, rfl⟩⟩

/-- Witness for C7 at a concrete pair: ours `[A]`, theirs `[A with a changed
payload]`. -/
theorem C7_conflict_surfaced_witness :
    annA ∈ [annA] ∧ annA2 ∈ [annA2]
    ∧ identityKey annA2 = identityKey annA ∧ annA2 ≠ annA
    ∧ ((∃ m, mergeAnnotations [annA] (recordsToMerge [annA] [annA2]) = .ok m
          ∧ annA ∈ m ∧ annA2 ∈ m)
        ∧ mismatchWarning (identityKey annA) ∈
            conflictReportsFrom (bothAnnotationIds [annA] [annA2]) [annA] [annA2]) :=
  ⟨by decide, by decide, by decide, by decide,
    C7_conflict_surfaced [annA] [annA2] annA annA2 (by decide) (by decide) (by decide) (by decide)⟩

/-- C8: the new records picked for merging are exactly the records of theirs
whose identity key (the last 42 characters of `id`) does not occur among the
identity keys of ours, in their encounter order in theirs. -/
theorem C8_new_records (ourAnnotations theirAnnotations : List Annotation) :
    theirNewAnnotations ourAnnotations theirAnnotations
      = theirAnnotations.filter
          (fun t => decide (identityKey t ∉ ourAnnotationIds ourAnnotations)) := by
  unfold theirNewAnnotations theirNewAnnotationsFrom
  apply List.filter_congr
  intro a ha
  simp only [decide_eq_decide]
  unfold theirNewAnnotationIds
  rw [List.mem_dedup, List.mem_filter]
  constructor
  · intro h
    simpa using h.2
  · intro h
    exact ⟨List.mem_map.mpr ⟨a, ha, rfl⟩, by simpa using h⟩

/-- C10: the materialized id lists (Python's `list(set(...) - set(...))` and
`list(set(...) & set(...))`, whose order is unspecified) are used only for
membership tests, so any two materializations with the same members give
identical new-record lists, identical conflicting-record lists, identical
printed reports and an identical merged collection — the run's artifacts are
a deterministic function of the input. -/
theorem C10_membership_determinism (ourAnnotations theirAnnotations : List Annotation)
    (ids1 ids2 bids1 bids2 : List String)
    (hids : ∀ x, x ∈ ids1 ↔ x ∈ ids2) (hbids : ∀ x, x ∈ bids1 ↔ x ∈ bids2) :
    theirNewAnnotationsFrom ids1 theirAnnotations = theirNewAnnotationsFrom ids2 theirAnnotations
    ∧ conflictingTheirsFrom bids1 ourAnnotations theirAnnotations
        = conflictingTheirsFrom bids2 ourAnnotations theirAnnotations
    ∧ conflictReportsFrom bids1 ourAnnotations theirAnnotations
        = conflictReportsFrom bids2 ourAnnotations theirAnnotations
    ∧ mergeAnnotations ourAnnotations
        (theirNewAnnotationsFrom ids1 theirAnnotations
          ++ conflictingTheirsFrom bids1 ourAnnotations theirAnnotations)
      = mergeAnnotations ourAnnotations
        (theirNewAnnotationsFrom ids2 theirAnnotations
          ++ conflictingTheirsFrom bids2 ourAnnotations theirAnnotations) := by
  have h1 : theirNewAnnotationsFrom ids1 theirAnnotations
      = theirNewAnnotationsFrom ids2 theirAnnotations := by
    unfold theirNewAnnotationsFrom
    exact List.filter_congr fun a _ => by simp only [decide_eq_decide]; exact hids _
  have h2 : conflictingTheirsFrom bids1 ourAnnotations theirAnnotations
      = conflictingTheirsFrom bids2 ourAnnotations theirAnnotations := by
    unfold conflictingTheirsFrom
    exact List.flatMap_congr fun o _ => if_congr (hbids _) rfl rfl
  have h3 : conflictReportsFrom bids1 ourAnnotations theirAnnotations
      = conflictReportsFrom bids2 ourAnnotations theirAnnotations := by
    unfold conflictReportsFrom
    exact List.flatMap_congr fun o _ => if_congr (hbids _) rfl rfl
  exact ⟨h1, h2, h3, by rw [h1, h2]⟩

/-- Witness for C10 at concrete membership-equal materializations (different
order and multiplicity, same members). -/
theorem C10_membership_determinism_witness :
    (∀ x, x ∈ ["id-B"] ↔ x ∈ ["id-B", "id-B"])
    ∧ (∀ x, x ∈ ["id-A"] ↔ x ∈ ["id-A", "id-A"])
    ∧ (theirNewAnnotationsFrom ["id-B"] [annA2, annB]
        = theirNewAnnotationsFrom ["id-B", "id-B"] [annA2, annB]
      ∧ conflictingTheirsFrom ["id-A"] [annA] [annA2, annB]
          = conflictingTheirsFrom ["id-A", "id-A"] [annA] [annA2, annB]
      ∧ conflictReportsFrom ["id-A"] [annA] [annA2, annB]
          = conflictReportsFrom ["id-A", "id-A"] [annA] [annA2, annB]
      ∧ mergeAnnotations [annA]
          (theirNewAnnotationsFrom ["id-B"] [annA2, annB]
            ++ conflictingTheirsFrom ["id-A"] [annA] [annA2, annB])
        = mergeAnnotations [annA]
          (theirNewAnnotationsFrom ["id-B", "id-B"] [annA2, annB]
            ++ conflictingTheirsFrom ["id-A", "id-A"] [annA] [annA2, annB])) :=
  ⟨by intro x; constructor <;> (intro h; simp at h; simp [h]),
    by intro x; constructor <;> (intro h; simp at h; simp [h]),
    C10_membership_determinism [annA] [annA2, annB] _ _ _ _
      (by intro x; constructor <;> (intro h; simp at h; simp [h]))
      (by intro x; constructor <;> (intro h; simp at h; simp [h]))⟩

end ConflictedAcPageResolver
